import Mathlib

/-
Verification of the reward-computation core of the stable-radical
optimization example (examples/stable_radical_optimization/stable_radical_opt.py)
and of the action-masking logic of GraphGymModel
(rlmolecule/graph_gym/graph_gym_model.py).

The Python code is shallowly embedded: floats become rationals, numpy
arrays become lists, raisable Python errors become `Except PyError`,
and the external collaborators (RDKit, the three trained Keras models,
the two featurization pipelines) are abstracted as function-valued
parameters, since their implementations are not part of this repository.
-/

/-- Python runtime errors that the embedded code can raise. -/
inductive PyError where
  | assertionError
  | typeError
  | indexError
  | nameError
  | valueError
  | zeroDivisionError
deriving DecidableEq

deriving instance DecidableEq for Except

/-- Embedding of `windowed_loss(target, desired_range)`.  The source computes
`span = hi - lo`, `lower_lim = lo + span/6`, `upper_lim = hi - span/6` and
branches on `target < lower_lim` / `target > upper_lim`; the division by
`span` raises `ZeroDivisionError` in Python exactly when `span = 0`, which
the embedding surfaces as an `Except.error`. -/
def windowed_loss (target : ℚ) (desired_range : ℚ × ℚ) : Except PyError ℚ :=
  let span := desired_range.2 - desired_range.1
  let lower_lim := desired_range.1 + span / 6
  let upper_lim := desired_range.2 - span / 6
  if target < lower_lim then
    if span = 0 then Except.error PyError.zeroDivisionError
    else Except.ok (max (1 - 3 * (|target - lower_lim| / span)) 0)
  else if target > upper_lim then
    if span = 0 then Except.error PyError.zeroDivisionError
    else Except.ok (max (1 - 3 * (|target - upper_lim| / span)) 0)
  else Except.ok 1

/-- Reference scorer written from the specification's words: full credit 1 on
the plateau `[low + span/6, high - span/6]`, linear decay
`max(1 - 3 |target - inner| / span, 0)` below and symmetrically above. -/
def windowed_ref (target low high : ℚ) : ℚ :=
  let span := high - low
  let inner_low := low + span / 6
  let inner_high := high - span / 6
  if inner_low ≤ target ∧ target ≤ inner_high then 1
  else if target < inner_low then max (1 - 3 * |target - inner_low| / span) 0
  else max (1 - 3 * |target - inner_high| / span) 0

/-- An RDKit atom, restricted to the fields the embedded code reads or
writes: the element symbol, the explicit-hydrogen count and the
radical-electron count. -/
structure Atom where
  symbol : String
  numExplicitHs : ℕ
  numRadicalElectrons : ℕ
deriving DecidableEq

/-- An RDKit bond: the indices of its two endpoint atoms.  A bond's RDKit
index `GetIdx()` is its position in the molecule's bond list. -/
structure Bond where
  beginAtom : ℕ
  endAtom : ℕ
deriving DecidableEq

/-- An RDKit molecule: a list of atoms (positions are atom indices) and a
list of bonds (positions are bond indices). -/
structure Mol where
  atoms : List Atom
  bonds : List Bond
deriving DecidableEq

/-- Result record of `prepare_for_bde` (a `pd.Series` in the source). -/
structure RadicalBDEInputs where
  mol_smiles : String
  radical_index_mol : ℕ
  bond_index : ℕ
  other_h_bonds : List ℕ
deriving DecidableEq

/-- Embedding of the radical-scan loop at the top of `prepare_for_bde`:
`for i, atom in enumerate(mol.GetAtoms()): if atom.GetNumRadicalElectrons() != 0:
assert radical_index == None; radical_index = i; atom.SetNumExplicitHs(...+1);
atom.SetNumRadicalElectrons(0); break`.  The returned list is the atom list
after the in-place mutation; the `assert` is modelled faithfully (it compares
the loop variable `radical_index` at the moment the branch is entered, and
because of the `break` that variable is still `None` there). -/
def scan_radical (atoms : List Atom) (i : ℕ) (radical_index : Option ℕ) :
    Except PyError (Option ℕ × List Atom) :=
  match atoms with
  | [] => Except.ok (radical_index, [])
  | atom :: rest =>
    if atom.numRadicalElectrons ≠ 0 then
      if radical_index ≠ none then Except.error PyError.assertionError
      else Except.ok (some i,
        { atom with numExplicitHs := atom.numExplicitHs + 1,
                    numRadicalElectrons := 0 } :: rest)
    else
      match scan_radical rest (i + 1) radical_index with
      | Except.error e => Except.error e
      | Except.ok (r, rest2) => Except.ok (r, atom :: rest2)

/-- The RDKit operations used by `prepare_for_bde`, abstracted as parameters:
they are library collaborators, not code of this repository. -/
structure RDKit where
  canonicalRankAtoms : Mol → List ℕ
  molToSmiles : Mol → String
  molFromSmiles : String → Mol
  addHs : Mol → Mol

/-- Symbol of atom `i` of molecule `m` (`GetAtomWithIdx(i).GetSymbol()`). -/
def atomSymbol (m : Mol) (i : ℕ) : String :=
  ((m.atoms[i]?).map Atom.symbol).getD ""

/-- Whether a bond has a hydrogen endpoint, the predicate
`(bond.GetEndAtom().GetSymbol() == 'H') | (bond.GetBeginAtom().GetSymbol() == 'H')`. -/
def hBond (m : Mol) (b : Bond) : Bool :=
  (atomSymbol m b.endAtom = "H") || (atomSymbol m b.beginAtom = "H")

/-- The bonds incident to atom `i`, paired with their bond indices
(`GetAtomWithIdx(i).GetBonds()`, each bond carrying its `GetIdx()`). -/
def atomBonds (m : Mol) (i : ℕ) : List (ℕ × Bond) :=
  m.bonds.enum.filter (fun p => p.2.beginAtom = i || p.2.endAtom = i)

/-- Indices of all bonds incident to any hydrogen atom
(`h_bond_indices` in the source). -/
def h_bond_indices (m : Mol) : List ℕ :=
  (m.bonds.enum.filter (fun p => hBond m p.2)).map Prod.fst

/-- Embedding of `prepare_for_bde(mol)`.  The second component of the result
is the state of the caller's molecule after the call: the source mutates its
argument in place (`atom.SetNumExplicitHs`, `atom.SetNumRadicalElectrons`)
without taking a copy.  Failure cases mirror Python: indexing a tuple with
`None` when no radical was found raises `TypeError`; `.index` on a missing
rank raises `ValueError`; the bond loop leaving `bond_index` unbound raises
`NameError` at its first use. -/
def prepare_for_bde (rd : RDKit) (mol : Mol) :
    Except PyError (RadicalBDEInputs × Mol) :=
  match scan_radical mol.atoms 0 none with
  | Except.error e => Except.error e
  | Except.ok (radical_index?, atoms2) =>
    let mutated : Mol := { atoms := atoms2, bonds := mol.bonds }
    match radical_index? with
    | none => Except.error PyError.typeError
    | some radical_index =>
      match (rd.canonicalRankAtoms mutated)[radical_index]? with
      | none => Except.error PyError.indexError
      | some radical_rank =>
        let mol_smiles := rd.molToSmiles mutated
        let mol2 := rd.molFromSmiles mol_smiles
        match (rd.canonicalRankAtoms mol2).findIdx? (fun r => r = radical_rank) with
        | none => Except.error PyError.valueError
        | some radical_index_reordered =>
          let molH := rd.addHs mol2
          match (atomBonds molH radical_index_reordered).find?
              (fun p => hBond molH p.2) with
          | none => Except.error PyError.nameError
          | some p =>
            let bond_index := p.1
            let other_h_bonds :=
              (h_bond_indices molH).filter (fun i => i ≠ bond_index)
            Except.ok ({ mol_smiles := mol_smiles,
                         radical_index_mol := radical_index_reordered,
                         bond_index := bond_index,
                         other_h_bonds := other_h_bonds }, mutated)

/-- Modelled from the spec: `StableRadMoleculeState` (its class lives outside
the two source files).  Per the spec's data model it is an immutable value
wrapping a molecular graph plus a `forced_terminal` flag and a SMILES string;
its `molecule` accessor exposes the wrapped graph. -/
structure MoleculeState where
  molecule : Mol
  smiles : String
  forced_terminal : Bool
deriving DecidableEq

/-- Feature matrices returned by a featurization pipeline
(`\x7b'atom': ..., 'bond': ..., 'connectivity': ...\x7d`), flattened to lists of
token values. -/
structure PolicyInputs where
  atom : List ℤ
  bond : List ℤ
  connectivity : List (ℤ × ℤ)
deriving DecidableEq

/-- The out-of-domain test
`(inputs['atom'] == 1).any() | (inputs['bond'] == 1).any()`, used both in
`get_reward` and (negated, under `assert`) in `bde_get_inputs`. -/
def out_of_domain (inputs : PolicyInputs) : Bool :=
  (inputs.atom.any (fun t => t = 1)) || (inputs.bond.any (fun t => t = 1))

/-- The six diagnostic scalars of the stats dict built by `calc_reward`
(the source stringifies them; the numeric values are kept here). -/
structure CalcStats where
  max_spin : ℚ
  spin_buried_vol : ℚ
  ionization_energy : ℚ
  electron_affinity : ℚ
  bde : ℚ
  bde_diff : ℚ
deriving DecidableEq

/-- The stats dict returned by `get_reward`: the `forced_terminal` and
`smiles` keys, plus the `calc_reward` diagnostics when present. -/
structure RewardInfo where
  forced_terminal : Bool
  smiles : String
  calcStats : Option CalcStats
deriving DecidableEq

/-- The external models and featurizers consumed by `StableRadOptProblem`,
abstracted as parameters: `get_policy_inputs` (inherited from the problem
base class), the stability / redox / BDE `predict` calls (already unpacked
to their numpy forms used by the source), the BDE-specific preprocessor,
and the RDKit operations. -/
structure Models where
  getPolicyInputs : MoleculeState → PolicyInputs
  stabilityPredict : PolicyInputs → List ℚ × List ℚ
  redoxPredict : PolicyInputs → ℚ × ℚ
  bdePreprocess : String → PolicyInputs
  bdePredict : PolicyInputs → List ℚ
  rd : RDKit

/-- Embedding of `bde_get_inputs(mol_smiles)`: run the BDE preprocessor and
`assert not (inputs['atom'] == 1).any() | (inputs['bond'] == 1).any()` —
unknown tokens raise `AssertionError`. -/
def bde_get_inputs (M : Models) (mol_smiles : String) : Except PyError PolicyInputs :=
  let inputs := M.bdePreprocess mol_smiles
  if out_of_domain inputs then Except.error PyError.assertionError
  else Except.ok inputs

/-- Numpy fancy indexing `pred_bdes[other_h_bonds]`; an out-of-range index
raises `IndexError`. -/
def fancyIndex (l : List ℚ) : List ℕ → Except PyError (List ℚ)
  | [] => Except.ok []
  | i :: rest =>
    match l[i]? with
    | none => Except.error PyError.indexError
    | some v =>
      match fancyIndex l rest with
      | Except.error e => Except.error e
      | Except.ok vs => Except.ok (v :: vs)

/-- Helper for `argmax`: running first-maximum scan (`np.argmax` returns the
first index attaining the maximum). -/
def argmaxAux : List ℚ → ℕ → ℕ → ℚ → ℕ
  | [], _, best, _ => best
  | x :: xs, i, best, bestVal =>
    if bestVal < x then argmaxAux xs (i + 1) i x
    else argmaxAux xs (i + 1) best bestVal

/-- Embedding of `np.argmax` on a flattened vector; `np.argmax` of an empty
array raises, hence the `Option`. -/
def argmax : List ℚ → Option ℕ
  | [] => none
  | x :: xs => some (argmaxAux xs 1 0 x)

/-- Embedding of `calc_bde(state)`: prepare the capped molecule, featurize
its SMILES with the BDE preprocessor, predict per-bond BDEs, read the
radical bond's BDE, and either return the 30.0 sentinel difference (no other
H bonds) or the minimum of `other_h_bdes - bde_radical`. -/
def calc_bde (M : Models) (state : MoleculeState) : Except PyError (ℚ × ℚ) :=
  match prepare_for_bde M.rd state.molecule with
  | Except.error e => Except.error e
  | Except.ok (bde_inputs, _) =>
    match bde_get_inputs M bde_inputs.mol_smiles with
    | Except.error e => Except.error e
    | Except.ok model_inputs =>
      let pred_bdes := M.bdePredict model_inputs
      match pred_bdes[bde_inputs.bond_index]? with
      | none => Except.error PyError.indexError
      | some bde_radical =>
        if bde_inputs.other_h_bonds.length = 0 then
          Except.ok (bde_radical, 30)
        else
          match fancyIndex pred_bdes bde_inputs.other_h_bonds with
          | Except.error e => Except.error e
          | Except.ok other_h_bdes =>
            match other_h_bdes.map (fun x => x - bde_radical) with
            | [] => Except.error PyError.valueError
            | d :: ds => Except.ok (bde_radical, ds.foldl min d)

/-- Embedding of `calc_reward(state)`: stability prediction, argmax over
the flattened spin vector, redox prediction, `calc_bde`, then the four
windowed losses at the fixed ranges combined into the scalar reward, plus
the diagnostics record. -/
def calc_reward (M : Models) (state : MoleculeState) :
    Except PyError (ℚ × CalcStats) :=
  let model_inputs := M.getPolicyInputs state
  match M.stabilityPredict model_inputs with
  | (spins, buried_vol) =>
    match argmax spins with
    | none => Except.error PyError.valueError
    | some atom_index =>
      match spins[atom_index]? with
      | none => Except.error PyError.indexError
      | some max_spin =>
        match buried_vol[atom_index]? with
        | none => Except.error PyError.indexError
        | some spin_buried_vol =>
          match state.molecule.atoms[atom_index]? with
          | none => Except.error PyError.indexError
          | some _atom_for_type =>
            match M.redoxPredict model_inputs with
            | (ionization_energy, electron_affinity) =>
              let v_diff := ionization_energy - electron_affinity
              match calc_bde M state with
              | Except.error e => Except.error e
              | Except.ok (bde, bde_diff) =>
                let ea_range : ℚ × ℚ := (-(1/2), 1/5)
                let ie_range : ℚ × ℚ := (1/2, 6/5)
                let v_range : ℚ × ℚ := (1, 17/10)
                let bde_range : ℚ × ℚ := (60, 80)
                match windowed_loss electron_affinity ea_range with
                | Except.error e => Except.error e
                | Except.ok wl_ea =>
                  match windowed_loss ionization_energy ie_range with
                  | Except.error e => Except.error e
                  | Except.ok wl_ie =>
                    match windowed_loss v_diff v_range with
                    | Except.error e => Except.error e
                    | Except.ok wl_v =>
                      match windowed_loss bde bde_range with
                      | Except.error e => Except.error e
                      | Except.ok wl_bde =>
                        Except.ok
                          ((1 - max_spin) * 50 + spin_buried_vol +
                             100 * (wl_ea + wl_ie + wl_v + wl_bde) / 4,
                           { max_spin := max_spin,
                             spin_buried_vol := spin_buried_vol,
                             ionization_energy := ionization_energy,
                             electron_affinity := electron_affinity,
                             bde := bde, bde_diff := bde_diff })

/-- Embedding of `get_reward(state)`: domain check on the policy
featurization, then the terminality check, and only a forced-terminal
in-domain state reaches `calc_reward`. -/
def get_reward (M : Models) (state : MoleculeState) :
    Except PyError (ℚ × RewardInfo) :=
  let policy_inputs := M.getPolicyInputs state
  if out_of_domain policy_inputs then
    Except.ok (0, { forced_terminal := false, smiles := state.smiles, calcStats := none })
  else if state.forced_terminal then
    match calc_reward M state with
    | Except.error e => Except.error e
    | Except.ok (reward, cstats) =>
      Except.ok (reward, { forced_terminal := true, smiles := state.smiles,
                           calcStats := some cstats })
  else
    Except.ok (0, { forced_terminal := false, smiles := state.smiles, calcStats := none })

/-
GraphGymModel (rlmolecule/graph_gym/graph_gym_model.py).  Tensors become
lists (batch dimension outermost); the per-action model is a parameter.
-/

/-- Row-splitting realizing `tf.reshape` of the flat per-action tensor back
to the `action_mask` shape `(batch, num_actions)`. -/
def splitLens (l : List ℚ) : List ℕ → List (List ℚ)
  | [] => []
  | n :: ns => l.take n :: splitLens (l.drop n) ns

/-- Embedding of `tf.where(action_mask, x, x.dtype.min)` applied row-wise:
entries at invalid actions are replaced by the dtype minimum. -/
def mask_min (dtypeMin : ℚ) (mask : List (List Bool)) (vals : List (List ℚ)) :
    List (List ℚ) :=
  List.zipWith (List.zipWith (fun m v => if m then v else dtypeMin)) mask vals

/-- Embedding of `tf.reduce_max(..., axis=1)` on one row; on an empty row
the float reduction yields the dtype minimum (negative infinity stand-in). -/
def reduce_max (dtypeMin : ℚ) : List ℚ → ℚ
  | [] => dtypeMin
  | x :: xs => xs.foldl max x

/-- The masked action-value tensor built inside `forward`:
flatten the per-batch action observations, evaluate the per-action model,
reshape to the mask's shape, and set invalid actions to the dtype minimum. -/
def masked_action_values {Obs : Type} (per_action_model : Obs → ℚ × ℚ)
    (dtypeMin : ℚ) (action_mask : List (List Bool))
    (action_observations : List (List Obs)) : List (List ℚ) :=
  mask_min dtypeMin action_mask
    (splitLens (action_observations.flatten.map (fun o => (per_action_model o).1))
      (action_mask.map List.length))

/-- Output of `forward`: the returned (masked) action weights and the stored
`total_value`. -/
structure ForwardOutput where
  action_weights : List (List ℚ)
  total_value : List ℚ
deriving DecidableEq

/-- Embedding of `GraphGymModel.forward`: the per-action model yields a
(value, weight) pair per action observation; values and weights are
reshaped to the mask's shape, invalid entries are replaced by the dtype
minimum, `total_value` stores the row maxima of the masked values, and the
masked weights are returned. -/
def forward {Obs : Type} (per_action_model : Obs → ℚ × ℚ) (dtypeMin : ℚ)
    (action_mask : List (List Bool)) (action_observations : List (List Obs)) :
    ForwardOutput :=
  { action_weights :=
      mask_min dtypeMin action_mask
        (splitLens (action_observations.flatten.map (fun o => (per_action_model o).2))
          (action_mask.map List.length)),
    total_value :=
      (masked_action_values per_action_model dtypeMin action_mask
        action_observations).map (reduce_max dtypeMin) }

/-- Embedding of `GraphGymModel.value_function`: returns the stored
`total_value`. -/
def value_function (out : ForwardOutput) : List ℚ :=
  out.total_value

/-
Concrete instances used by the witnesses and counterexamples.
-/

/-- Methyl radical `[CH3]`: one carbon, three explicit hydrogens, one
radical electron. -/
def molMethyl : Mol :=
  { atoms := [{ symbol := "C", numExplicitHs := 3, numRadicalElectrons := 1 }],
    bonds := [] }

/-- The methyl radical after the in-place capping performed by
`prepare_for_bde`: four explicit hydrogens, no radical electrons. -/
def molMethylCapped : Mol :=
  { atoms := [{ symbol := "C", numExplicitHs := 4, numRadicalElectrons := 0 }],
    bonds := [] }

/-- Methane as reparsed from SMILES (implicit hydrogens). -/
def molC : Mol :=
  { atoms := [{ symbol := "C", numExplicitHs := 0, numRadicalElectrons := 0 }],
    bonds := [] }

/-- Methane with explicit hydrogen atoms: C plus four H atoms, four C–H
bonds. -/
def molCH4 : Mol :=
  { atoms := [{ symbol := "C", numExplicitHs := 0, numRadicalElectrons := 0 },
              { symbol := "H", numExplicitHs := 0, numRadicalElectrons := 0 },
              { symbol := "H", numExplicitHs := 0, numRadicalElectrons := 0 },
              { symbol := "H", numExplicitHs := 0, numRadicalElectrons := 0 },
              { symbol := "H", numExplicitHs := 0, numRadicalElectrons := 0 }],
    bonds := [{ beginAtom := 0, endAtom := 1 }, { beginAtom := 0, endAtom := 2 },
              { beginAtom := 0, endAtom := 3 }, { beginAtom := 0, endAtom := 4 }] }

/-- A concrete RDKit instantiation consistent with the methyl-radical
scenario. -/
def rdMethyl : RDKit :=
  { canonicalRankAtoms := fun m => List.range m.atoms.length,
    molToSmiles := fun _ => "C",
    molFromSmiles := fun _ => molC,
    addHs := fun _ => molCH4 }

/-- The record `prepare_for_bde` produces in the methyl-radical scenario. -/
def inputsMethyl : RadicalBDEInputs :=
  { mol_smiles := "C", radical_index_mol := 0, bond_index := 0,
    other_h_bonds := [1, 2, 3] }

/-- A forced-terminal state wrapping the methyl radical. -/
def stateMethyl : MoleculeState :=
  { molecule := molMethyl, smiles := "[CH3]", forced_terminal := true }

/-- The same state, not forced-terminal. -/
def stateMethylNT : MoleculeState :=
  { molecule := molMethyl, smiles := "[CH3]", forced_terminal := false }

/-- Concrete models: clean featurizations, one-atom stability vectors,
plateau redox values, and four per-bond BDE predictions. -/
def Mconc : Models :=
  { getPolicyInputs := fun _ => { atom := [6, 6], bond := [2], connectivity := [] },
    stabilityPredict := fun _ => ([9/10], [3/10]),
    redoxPredict := fun _ => (1, -(1/5)),
    bdePreprocess := fun _ => { atom := [5], bond := [3], connectivity := [] },
    bdePredict := fun _ => [70, 90, 85, 95],
    rd := rdMethyl }

/-- The same models except that the BDE preprocessor reports an unknown
token (value 1) in its atom features. -/
def Mbadbde : Models :=
  { Mconc with
    bdePreprocess := fun _ => { atom := [1], bond := [3], connectivity := [] } }

/-- A 1,2-diradical: two carbons, each with one radical electron. -/
def molDirad : Mol :=
  { atoms := [{ symbol := "C", numExplicitHs := 2, numRadicalElectrons := 1 },
              { symbol := "C", numExplicitHs := 2, numRadicalElectrons := 1 }],
    bonds := [{ beginAtom := 0, endAtom := 1 }] }

/-- The diradical after `prepare_for_bde` capped the first radical found:
the second atom is still a radical. -/
def molDiradMut : Mol :=
  { atoms := [{ symbol := "C", numExplicitHs := 3, numRadicalElectrons := 0 },
              { symbol := "C", numExplicitHs := 2, numRadicalElectrons := 1 }],
    bonds := [{ beginAtom := 0, endAtom := 1 }] }

/-- The ethyl-radical-like molecule the diradical reparses to after the
first radical was capped. -/
def molEthylRad : Mol :=
  { atoms := [{ symbol := "C", numExplicitHs := 0, numRadicalElectrons := 0 },
              { symbol := "C", numExplicitHs := 0, numRadicalElectrons := 1 }],
    bonds := [{ beginAtom := 0, endAtom := 1 }] }

/-- The reparsed molecule with explicit hydrogens: C–C plus three H on atom
0 and two H on atom 1. -/
def molEthane7 : Mol :=
  { atoms := [{ symbol := "C", numExplicitHs := 0, numRadicalElectrons := 0 },
              { symbol := "C", numExplicitHs := 0, numRadicalElectrons := 0 },
              { symbol := "H", numExplicitHs := 0, numRadicalElectrons := 0 },
              { symbol := "H", numExplicitHs := 0, numRadicalElectrons := 0 },
              { symbol := "H", numExplicitHs := 0, numRadicalElectrons := 0 },
              { symbol := "H", numExplicitHs := 0, numRadicalElectrons := 0 },
              { symbol := "H", numExplicitHs := 0, numRadicalElectrons := 0 }],
    bonds := [{ beginAtom := 0, endAtom := 1 }, { beginAtom := 0, endAtom := 2 },
              { beginAtom := 0, endAtom := 3 }, { beginAtom := 0, endAtom := 4 },
              { beginAtom := 1, endAtom := 5 }, { beginAtom := 1, endAtom := 6 }] }

/-- A concrete RDKit instantiation consistent with the diradical scenario. -/
def rdDirad : RDKit :=
  { canonicalRankAtoms := fun m => List.range m.atoms.length,
    molToSmiles := fun _ => "CC",
    molFromSmiles := fun _ => molEthylRad,
    addHs := fun _ => molEthane7 }

/-- The record `prepare_for_bde` produces on the diradical. -/
def inputsDirad : RadicalBDEInputs :=
  { mol_smiles := "CC", radical_index_mol := 0, bond_index := 1,
    other_h_bonds := [2, 3, 4, 5] }

/-- A radical-free molecule (methane). -/
def molNoRad : Mol :=
  { atoms := [{ symbol := "C", numExplicitHs := 4, numRadicalElectrons := 0 }],
    bonds := [] }

/-
Shared lemmas.
-/

/-- For a positive span the source scorer agrees with the specification's
piecewise reference scorer and raises nothing. -/
theorem windowed_loss_eq_ref (target low high : ℚ) (hspan : 0 < high - low) :
    windowed_loss target (low, high) = Except.ok (windowed_ref target low high) := by
  have hne : high - low ≠ 0 := ne_of_gt hspan
  unfold windowed_loss windowed_ref
  simp only
  by_cases h1 : target < low + (high - low) / 6
  · have hplat : ¬(low + (high - low) / 6 ≤ target ∧
        target ≤ high - (high - low) / 6) := by
      rintro ⟨ha, _⟩; linarith
    rw [if_pos h1, if_neg hne, if_neg hplat, if_pos h1, mul_div_assoc]
  · rw [if_neg h1]
    by_cases h3 : target > high - (high - low) / 6
    · have hplat : ¬(low + (high - low) / 6 ≤ target ∧
          target ≤ high - (high - low) / 6) := by
        rintro ⟨_, hb⟩; linarith
      rw [if_pos h3, if_neg hne, if_neg hplat, if_neg h1, mul_div_assoc]
    · have hplat : low + (high - low) / 6 ≤ target ∧
          target ≤ high - (high - low) / 6 := ⟨le_of_not_lt h1, le_of_not_lt h3⟩
      rw [if_neg h3, if_pos hplat]

/-- The reference scorer is nonnegative. -/
theorem windowed_ref_nonneg (target low high : ℚ) :
    0 ≤ windowed_ref target low high := by
  unfold windowed_ref
  simp only
  split_ifs
  · norm_num
  · exact le_max_right _ _
  · exact le_max_right _ _

/-- For a positive span the reference scorer is at most 1. -/
theorem windowed_ref_le_one (target low high : ℚ) (hspan : 0 < high - low) :
    windowed_ref target low high ≤ 1 := by
  unfold windowed_ref
  simp only
  have hnn : ∀ x : ℚ, 0 ≤ 3 * |x| / (high - low) :=
    fun x => div_nonneg (by positivity) hspan.le
  split_ifs
  · exact le_refl 1
  · exact max_le (by linarith [hnn (target - (low + (high - low) / 6))]) (by norm_num)
  · exact max_le (by linarith [hnn (target - (high - (high - low) / 6))]) (by norm_num)

/-- At or beyond `low - span/3` the reference scorer is exactly 0. -/
theorem windowed_ref_zero_of_far (target low high : ℚ) (hspan : 0 < high - low)
    (ht : target ≤ low - (high - low) / 3) :
    windowed_ref target low high = 0 := by
  unfold windowed_ref
  simp only
  have h1 : target < low + (high - low) / 6 := by linarith
  have h2 : ¬(low + (high - low) / 6 ≤ target ∧
      target ≤ high - (high - low) / 6) := by
    rintro ⟨ha, _⟩; linarith
  rw [if_neg h2, if_pos h1]
  have habs : |target - (low + (high - low) / 6)|
      = (low + (high - low) / 6) - target := by
    rw [abs_of_nonpos (by linarith)]; ring
  rw [habs]
  have hge : 1 ≤ 3 * ((low + (high - low) / 6) - target) / (high - low) := by
    rw [le_div_iff₀ hspan]
    linarith
  exact max_eq_right (by linarith)

/-
Claim C6.
-/

/-- C6: for every range `(low, high)` with positive span, `windowed_loss`
returns the spec's piecewise reference value (plateau 1 on
`[low + span/6, high - span/6]`, linear decay clipped at 0 on both sides);
consequently the score is in `[0, 1]` and is 0 at `low - span/3` or beyond;
and for the range `(60, 80)` the score at target 60 is exactly `1/2`. -/
theorem windowed_loss_spec (target low high : ℚ) (hspan : 0 < high - low) :
    windowed_loss target (low, high) = Except.ok (windowed_ref target low high) ∧
    0 ≤ windowed_ref target low high ∧
    windowed_ref target low high ≤ 1 ∧
    (target ≤ low - (high - low) / 3 → windowed_ref target low high = 0) ∧
    windowed_loss 60 (60, 80) = Except.ok (1/2) :=
  ⟨windowed_loss_eq_ref target low high hspan,
   windowed_ref_nonneg target low high,
   windowed_ref_le_one target low high hspan,
   fun ht => windowed_ref_zero_of_far target low high hspan ht,
   by norm_num [windowed_loss, abs_of_nonneg, max_def]⟩

/-- Witness for C6 at the range `(60, 80)` and target 60. -/
theorem windowed_loss_spec_witness :
    (0 : ℚ) < 80 - 60 ∧
    (windowed_loss 60 (60, 80) = Except.ok (windowed_ref 60 60 80) ∧
     0 ≤ windowed_ref 60 60 80 ∧
     windowed_ref 60 60 80 ≤ 1 ∧
     ((60 : ℚ) ≤ 60 - (80 - 60) / 3 → windowed_ref 60 60 80 = 0) ∧
     windowed_loss 60 (60, 80) = Except.ok (1/2)) :=
  ⟨by norm_num, windowed_loss_spec 60 60 80 (by norm_num)⟩

/-
Claim C7.
-/

/-- C7 counterexample: for the range `(5, 3)` (span `-2 ≤ 0`) and target 4,
`windowed_loss` does not fail fast: it silently returns the value 2 from its
first branch. -/
theorem windowed_loss_span_nonpos_silent :
    (3 : ℚ) - 5 ≤ 0 ∧ windowed_loss 4 (5, 3) = Except.ok 2 :=
  ⟨by norm_num, by norm_num [windowed_loss, abs_of_nonneg, max_def]⟩

/-- C7 amended: for a nonpositive span, `windowed_loss` does not treat the
call as a contract violation.  With span strictly negative it always
silently returns a value from one of its branches; with span zero it
silently returns 1 when the target equals the collapsed bound and raises
`ZeroDivisionError` otherwise. -/
theorem windowed_loss_span_nonpos_behavior (target low high : ℚ)
    (h : high - low ≤ 0) :
    (∃ v, windowed_loss target (low, high) = Except.ok v) ↔
      (high - low < 0 ∨ target = low) := by
  unfold windowed_loss
  simp only
  rcases lt_or_eq_of_le h with hlt | heq
  · have hne : high - low ≠ 0 := ne_of_lt hlt
    by_cases h1 : target < low + (high - low) / 6
    · rw [if_pos h1, if_neg hne]
      exact iff_of_true ⟨_, rfl⟩ (Or.inl hlt)
    · rw [if_neg h1]
      by_cases h3 : target > high - (high - low) / 6
      · rw [if_pos h3, if_neg hne]
        exact iff_of_true ⟨_, rfl⟩ (Or.inl hlt)
      · rw [if_neg h3]
        exact iff_of_true ⟨1, rfl⟩ (Or.inl hlt)
  · have hh : high = low := by linarith
    subst hh
    have hspan0 : high - high = 0 := by ring
    rw [hspan0]
    norm_num
    rcases lt_trichotomy target high with ht | ht | ht
    · rw [if_pos ht]
      constructor
      · rintro ⟨v, hv⟩; exact absurd hv (by simp)
      · intro hteq; exact absurd hteq (ne_of_lt ht)
    · rw [if_neg (by linarith), if_neg (by linarith)]
      exact iff_of_true ⟨1, rfl⟩ ht
    · rw [if_neg (by linarith), if_pos ht]
      constructor
      · rintro ⟨v, hv⟩; exact absurd hv (by simp)
      · intro hteq; exact absurd hteq (ne_of_gt ht)

/-- Witness for the amended C7 at the range `(5, 3)` and target 4. -/
theorem windowed_loss_span_nonpos_behavior_witness :
    (3 : ℚ) - 5 ≤ 0 ∧
    ((∃ v, windowed_loss 4 (5, 3) = Except.ok v) ↔
      ((3 : ℚ) - 5 < 0 ∨ (4 : ℚ) = 5)) :=
  ⟨by norm_num, windowed_loss_span_nonpos_behavior 4 5 3 (by norm_num)⟩

/-
Claim C3.
-/

/-- C3 (code bug): the radical-scan loop of `prepare_for_bde` exits via
`break` immediately after capping the first radical atom it finds, so its
`assert radical_index == None` can never observe a second radical atom.  On
a molecule with two radical atoms `prepare_for_bde` therefore returns a
`RadicalBDEInputs` record (capping only the first radical) instead of
failing; only the zero-radical case fails, and it does so with a
`TypeError` (indexing the rank tuple with `None`), not an invariant check. -/
theorem prepare_for_bde_multi_radical_no_failure :
    (molDirad.atoms.countP fun a => a.numRadicalElectrons != 0) = 2 ∧
    prepare_for_bde rdDirad molDirad = Except.ok (inputsDirad, molDiradMut) ∧
    (molNoRad.atoms.countP fun a => a.numRadicalElectrons != 0) = 0 ∧
    prepare_for_bde rdDirad molNoRad = Except.error PyError.typeError := by
  refine ⟨by decide, by decide, by decide, by decide⟩

/-
Claim C4.
-/

/-- C4 (code bug): `prepare_for_bde` caps the radical atom on the very
molecule object it receives — no working copy is taken — so after the call
the caller's molecule (here the methyl radical, explicit-H count 3 and
radical-electron count 1) has been changed to explicit-H count 4 and
radical-electron count 0.  The second component of the embedded result is
the post-call state of the argument. -/
theorem prepare_for_bde_mutates_input :
    prepare_for_bde rdMethyl molMethyl = Except.ok (inputsMethyl, molMethylCapped) ∧
    molMethylCapped ≠ molMethyl ∧
    (molMethyl.atoms.map fun a => (a.numExplicitHs, a.numRadicalElectrons))
      = [(3, 1)] ∧
    (molMethylCapped.atoms.map fun a => (a.numExplicitHs, a.numRadicalElectrons))
      = [(4, 0)] := by
  refine ⟨by decide, by decide, by decide, by decide⟩

/-
Claim C8.
-/

/-- C8: whenever `prepare_for_bde` returns on a molecule with exactly one
radical atom, `other_h_bonds` never contains `bond_index`, and its members
are exactly the indices of bonds incident to a hydrogen atom in the
explicit-hydrogen molecule, minus `bond_index`. -/
theorem prepare_for_bde_other_h_bonds_spec (rd : RDKit) (mol : Mol)
    (inputs : RadicalBDEInputs) (mutated : Mol)
    (_hone : (mol.atoms.countP fun a => a.numRadicalElectrons != 0) = 1)
    (hok : prepare_for_bde rd mol = Except.ok (inputs, mutated)) :
    inputs.bond_index ∉ inputs.other_h_bonds ∧
    ∀ i, i ∈ inputs.other_h_bonds ↔
      (i ∈ h_bond_indices (rd.addHs (rd.molFromSmiles inputs.mol_smiles)) ∧
       i ≠ inputs.bond_index) := by
  unfold prepare_for_bde at hok
  rcases h1 : scan_radical mol.atoms 0 none with e | ⟨ri, atoms2⟩
  · rw [h1] at hok; simp at hok
  · rw [h1] at hok
    cases ri with
    | none => simp at hok
    | some radical_index =>
      dsimp only at hok
      rcases h2 : (rd.canonicalRankAtoms
          { atoms := atoms2, bonds := mol.bonds })[radical_index]?
        with _ | radical_rank
      · rw [h2] at hok; simp at hok
      · rw [h2] at hok
        dsimp only at hok
        rcases h3 : (rd.canonicalRankAtoms (rd.molFromSmiles
            (rd.molToSmiles { atoms := atoms2, bonds := mol.bonds }))).findIdx?
            (fun r => r = radical_rank) with _ | rir
        · rw [h3] at hok; simp at hok
        · rw [h3] at hok
          dsimp only at hok
          rcases h4 : (atomBonds (rd.addHs (rd.molFromSmiles
              (rd.molToSmiles { atoms := atoms2, bonds := mol.bonds }))) rir).find?
              (fun p => hBond (rd.addHs (rd.molFromSmiles
                (rd.molToSmiles { atoms := atoms2, bonds := mol.bonds }))) p.2)
            with _ | p
          · rw [h4] at hok; simp at hok
          · rw [h4] at hok
            simp only [Except.ok.injEq, Prod.mk.injEq] at hok
            obtain ⟨hrec, hmut⟩ := hok
            subst hrec
            constructor
            · intro hmem
              rw [List.mem_filter] at hmem
              simp at hmem
            · intro i
              rw [List.mem_filter]
              simp

/-- Witness for C8 in the methyl-radical scenario. -/
theorem prepare_for_bde_other_h_bonds_spec_witness :
    (molMethyl.atoms.countP fun a => a.numRadicalElectrons != 0) = 1 ∧
    inputsMethyl.bond_index ∉ inputsMethyl.other_h_bonds ∧
    (3 ∈ inputsMethyl.other_h_bonds ↔
      (3 ∈ h_bond_indices (rdMethyl.addHs
        (rdMethyl.molFromSmiles inputsMethyl.mol_smiles)) ∧
       3 ≠ inputsMethyl.bond_index)) := by
  have h := prepare_for_bde_other_h_bonds_spec rdMethyl molMethyl inputsMethyl
    molMethylCapped (by decide) (by decide)
  exact ⟨by decide, h.1, h.2 3⟩

/-
Shared list lemmas for the minimum / maximum reductions.
-/

/-- A left fold with `min` is a lower bound of the seed and all elements. -/
theorem foldl_min_le {α : Type} [LinearOrder α] :
    ∀ (l : List α) (d : α), l.foldl min d ≤ d ∧ ∀ x ∈ l, l.foldl min d ≤ x := by
  intro l
  induction l with
  | nil => intro d; exact ⟨le_refl d, by simp⟩
  | cons x xs ih =>
    intro d
    refine ⟨?_, ?_⟩
    · exact le_trans (ih (min d x)).1 (min_le_left _ _)
    · intro y hy
      rcases List.mem_cons.mp hy with h | h
      · subst h
        exact le_trans (ih (min d y)).1 (min_le_right _ _)
      · exact (ih (min d x)).2 y h

/-- A left fold with `min` is attained at the seed or at some element. -/
theorem foldl_min_mem {α : Type} [LinearOrder α] :
    ∀ (l : List α) (d : α), l.foldl min d ∈ d :: l := by
  intro l
  induction l with
  | nil => intro d; simp
  | cons x xs ih =>
    intro d
    show xs.foldl min (min d x) ∈ d :: x :: xs
    rcases List.mem_cons.mp (ih (min d x)) with h | h
    · rw [h]
      rcases min_choice d x with hc | hc <;> rw [hc] <;> simp
    · simp [h]

/-- A left fold with `max` is an upper bound of the seed and all elements. -/
theorem foldl_max_le {α : Type} [LinearOrder α] :
    ∀ (l : List α) (d : α), d ≤ l.foldl max d ∧ ∀ x ∈ l, x ≤ l.foldl max d := by
  intro l
  induction l with
  | nil => intro d; exact ⟨le_refl d, by simp⟩
  | cons x xs ih =>
    intro d
    refine ⟨?_, ?_⟩
    · exact le_trans (le_max_left _ _) (ih (max d x)).1
    · intro y hy
      rcases List.mem_cons.mp hy with h | h
      · subst h
        exact le_trans (le_max_right _ _) (ih (max d y)).1
      · exact (ih (max d x)).2 y h

/-- A left fold with `max` is attained at the seed or at some element. -/
theorem foldl_max_mem {α : Type} [LinearOrder α] :
    ∀ (l : List α) (d : α), l.foldl max d ∈ d :: l := by
  intro l
  induction l with
  | nil => intro d; simp
  | cons x xs ih =>
    intro d
    show xs.foldl max (max d x) ∈ d :: x :: xs
    rcases List.mem_cons.mp (ih (max d x)) with h | h
    · rw [h]
      rcases max_choice d x with hc | hc <;> rw [hc] <;> simp
    · simp [h]

/-- Fancy indexing succeeds and picks the indexed entries when all indices
are in range. -/
theorem fancyIndex_ok (l : List ℚ) (idxs : List ℕ)
    (h : ∀ i ∈ idxs, i < l.length) :
    fancyIndex l idxs = Except.ok (idxs.map fun i => l.getD i 0) := by
  induction idxs with
  | nil => rfl
  | cons i rest ih =>
    have hi : i < l.length := h i (by simp)
    unfold fancyIndex
    rw [List.getElem?_eq_getElem hi, ih (fun j hj => h j (by simp [hj]))]
    simp [List.getD_eq_getElem l 0 hi, List.getElem?_eq_getElem hi]

/-
Claim C9.
-/

/-- C9: when `prepare_for_bde` and the BDE featurization succeed and all
bond indices are in range of the per-bond predictions, `calc_bde` returns
the predicted BDE at `bond_index`, together with the sentinel difference
30.0 when `other_h_bonds` is empty, and otherwise the minimum over the
other H-bearing bonds of (that bond's predicted BDE minus the radical
bond's predicted BDE). -/
theorem calc_bde_spec (M : Models) (state : MoleculeState)
    (bi : RadicalBDEInputs) (mutated : Mol)
    (hprep : prepare_for_bde M.rd state.molecule = Except.ok (bi, mutated))
    (hfeat : out_of_domain (M.bdePreprocess bi.mol_smiles) = false)
    (hbond : bi.bond_index < (M.bdePredict (M.bdePreprocess bi.mol_smiles)).length)
    (hoth : ∀ i ∈ bi.other_h_bonds,
      i < (M.bdePredict (M.bdePreprocess bi.mol_smiles)).length) :
    ∃ bde_diff,
      calc_bde M state = Except.ok
        ((M.bdePredict (M.bdePreprocess bi.mol_smiles)).getD bi.bond_index 0,
         bde_diff) ∧
      (bi.other_h_bonds = [] → bde_diff = 30) ∧
      (bi.other_h_bonds ≠ [] →
        bde_diff ∈ bi.other_h_bonds.map (fun i =>
          (M.bdePredict (M.bdePreprocess bi.mol_smiles)).getD i 0 -
            (M.bdePredict (M.bdePreprocess bi.mol_smiles)).getD bi.bond_index 0) ∧
        ∀ x ∈ bi.other_h_bonds.map (fun i =>
          (M.bdePredict (M.bdePreprocess bi.mol_smiles)).getD i 0 -
            (M.bdePredict (M.bdePreprocess bi.mol_smiles)).getD bi.bond_index 0),
          bde_diff ≤ x) := by
  unfold calc_bde
  rw [hprep]
  dsimp only
  have hfeq : bde_get_inputs M bi.mol_smiles
      = Except.ok (M.bdePreprocess bi.mol_smiles) := by
    simp [bde_get_inputs, hfeat]
  rw [hfeq]
  dsimp only
  rw [List.getElem?_eq_getElem hbond]
  dsimp only
  rw [← List.getD_eq_getElem (M.bdePredict (M.bdePreprocess bi.mol_smiles)) 0 hbond]
  by_cases hempty : bi.other_h_bonds = []
  · rw [hempty]
    exact ⟨30, by simp, fun _ => rfl, fun hne => absurd rfl hne⟩
  · have hlen : bi.other_h_bonds.length ≠ 0 := by simpa using hempty
    rw [if_neg hlen, fancyIndex_ok _ _ hoth]
    dsimp only
    obtain ⟨j, rest, hjr⟩ : ∃ j rest, bi.other_h_bonds = j :: rest := by
      cases h : bi.other_h_bonds with
      | nil => exact absurd h hempty
      | cons a b => exact ⟨a, b, rfl⟩
    rw [hjr]
    simp only [List.map_cons, List.map_map]
    refine ⟨_, rfl, fun hc => absurd hc (by simp), fun _ => ⟨?_, ?_⟩⟩
    · have hm := foldl_min_mem
        ((rest.map fun i =>
          (M.bdePredict (M.bdePreprocess bi.mol_smiles)).getD i 0).map
            (fun x => x - (M.bdePredict (M.bdePreprocess bi.mol_smiles)).getD
              bi.bond_index 0))
        ((M.bdePredict (M.bdePreprocess bi.mol_smiles)).getD j 0 -
          (M.bdePredict (M.bdePreprocess bi.mol_smiles)).getD bi.bond_index 0)
      simp only [List.map_map] at hm
      simpa using hm
    · intro x hx
      have hl := foldl_min_le
        ((rest.map fun i =>
          (M.bdePredict (M.bdePreprocess bi.mol_smiles)).getD i 0).map
            (fun x => x - (M.bdePredict (M.bdePreprocess bi.mol_smiles)).getD
              bi.bond_index 0))
        ((M.bdePredict (M.bdePreprocess bi.mol_smiles)).getD j 0 -
          (M.bdePredict (M.bdePreprocess bi.mol_smiles)).getD bi.bond_index 0)
      simp only [List.map_map] at hl
      rcases List.mem_cons.mp hx with h | h
      · subst h; simpa using hl.1
      · exact hl.2 x (by simpa using h)

/-- Witness for C9 in the methyl-radical scenario: the radical bond has
predicted BDE 70 and the three competing H bonds give differences
20, 15, 25. -/
theorem calc_bde_spec_witness :
    out_of_domain (Mconc.bdePreprocess inputsMethyl.mol_smiles) = false ∧
    inputsMethyl.bond_index <
      (Mconc.bdePredict (Mconc.bdePreprocess inputsMethyl.mol_smiles)).length ∧
    (∃ bde_diff,
      calc_bde Mconc stateMethyl = Except.ok
        ((Mconc.bdePredict (Mconc.bdePreprocess inputsMethyl.mol_smiles)).getD
          inputsMethyl.bond_index 0, bde_diff) ∧
      (inputsMethyl.other_h_bonds = [] → bde_diff = 30) ∧
      (inputsMethyl.other_h_bonds ≠ [] →
        bde_diff ∈ inputsMethyl.other_h_bonds.map (fun i =>
          (Mconc.bdePredict (Mconc.bdePreprocess inputsMethyl.mol_smiles)).getD i 0 -
            (Mconc.bdePredict (Mconc.bdePreprocess inputsMethyl.mol_smiles)).getD
              inputsMethyl.bond_index 0) ∧
        ∀ x ∈ inputsMethyl.other_h_bonds.map (fun i =>
          (Mconc.bdePredict (Mconc.bdePreprocess inputsMethyl.mol_smiles)).getD i 0 -
            (Mconc.bdePredict (Mconc.bdePreprocess inputsMethyl.mol_smiles)).getD
              inputsMethyl.bond_index 0),
          bde_diff ≤ x)) :=
  ⟨by decide, by decide,
   calc_bde_spec Mconc stateMethyl inputsMethyl molMethylCapped
     (by decide) (by decide) (by decide) (by decide)⟩

/-
Shared lemmas about argmax.
-/

/-- The running first-maximum scan stays below the starting offset plus the
number of remaining entries. -/
theorem argmaxAux_lt (xs : List ℚ) :
    ∀ (i best : ℕ) (bv : ℚ), best < i → argmaxAux xs i best bv < i + xs.length := by
  induction xs with
  | nil =>
    intro i best bv h
    simpa [argmaxAux] using h
  | cons x xs ih =>
    intro i best bv h
    unfold argmaxAux
    by_cases hc : bv < x
    · rw [if_pos hc]
      have h2 := ih (i + 1) i x (Nat.lt_succ_self i)
      simp only [List.length_cons]
      omega
    · rw [if_neg hc]
      have h2 := ih (i + 1) best bv (by omega)
      simp only [List.length_cons]
      omega

/-- `argmax` returns an index inside the list. -/
theorem argmax_lt_length (l : List ℚ) (i : ℕ) (h : argmax l = some i) :
    i < l.length := by
  cases l with
  | nil => simp [argmax] at h
  | cons x xs =>
    simp only [argmax, Option.some.injEq] at h
    subst h
    have h2 := argmaxAux_lt xs 1 0 x (by omega)
    simp only [List.length_cons]
    omega

/-
Claim C1.
-/

/-- C1: for a forced-terminal in-domain state on which the three predictions
succeed, `get_reward` returns the reward
`(1 - max_spin)·50 + spin_buried_vol + 100·(mean of the four windowed
scores)` with the fixed ranges EA `(-0.5, 0.2)`, IE `(0.5, 1.2)`,
V `(1, 1.7)` and BDE `(60, 80)`, where `atom_index` is the argmax of the
flattened spin vector, `max_spin = spins[atom_index]`,
`spin_buried_vol = buried_vol[atom_index]` and
`v_diff = ionization_energy - electron_affinity`. -/
theorem get_reward_terminal_formula (M : Models) (state : MoleculeState)
    (spins buried_vol : List ℚ)
    (ionization_energy electron_affinity bde bde_diff : ℚ) (atom_index : ℕ)
    (hdom : out_of_domain (M.getPolicyInputs state) = false)
    (hterm : state.forced_terminal = true)
    (hstab : M.stabilityPredict (M.getPolicyInputs state) = (spins, buried_vol))
    (hargmax : argmax spins = some atom_index)
    (hbv : atom_index < buried_vol.length)
    (hatom : atom_index < state.molecule.atoms.length)
    (hredox : M.redoxPredict (M.getPolicyInputs state)
      = (ionization_energy, electron_affinity))
    (hbde : calc_bde M state = Except.ok (bde, bde_diff)) :
    ∃ info,
      get_reward M state = Except.ok
        ((1 - spins.getD atom_index 0) * 50 + buried_vol.getD atom_index 0 +
          100 * ((windowed_ref electron_affinity (-(1/2)) (1/5) +
                  windowed_ref ionization_energy (1/2) (6/5) +
                  windowed_ref (ionization_energy - electron_affinity) 1 (17/10) +
                  windowed_ref bde 60 80) / 4), info) := by
  have hsp : atom_index < spins.length := argmax_lt_length spins atom_index hargmax
  refine ⟨RewardInfo.mk true state.smiles (some (CalcStats.mk
    (spins.getD atom_index 0) (buried_vol.getD atom_index 0)
    ionization_energy electron_affinity bde bde_diff)), ?_⟩
  simp only [get_reward, calc_reward, hdom, Bool.false_eq_true, if_false, hterm,
    if_true, hstab, hargmax, hredox, hbde, List.getElem?_eq_getElem hsp,
    List.getElem?_eq_getElem hbv, List.getElem?_eq_getElem hatom,
    windowed_loss_eq_ref electron_affinity (-(1/2)) (1/5) (by norm_num),
    windowed_loss_eq_ref ionization_energy (1/2) (6/5) (by norm_num),
    windowed_loss_eq_ref (ionization_energy - electron_affinity) 1 (17/10)
      (by norm_num),
    windowed_loss_eq_ref bde 60 80 (by norm_num),
    List.getD_eq_getElem spins 0 hsp, List.getD_eq_getElem buried_vol 0 hbv]
  rw [mul_div_assoc]

/-- Witness for C1 in the methyl-radical scenario (reward `1053/10`). -/
theorem get_reward_terminal_formula_witness :
    stateMethyl.forced_terminal = true ∧
    out_of_domain (Mconc.getPolicyInputs stateMethyl) = false ∧
    (∃ info, get_reward Mconc stateMethyl = Except.ok
      ((1 - ([(9:ℚ)/10]).getD 0 0) * 50 + ([(3:ℚ)/10]).getD 0 0 +
        100 * ((windowed_ref (-(1/5)) (-(1/2)) (1/5) +
                windowed_ref 1 (1/2) (6/5) +
                windowed_ref (1 - -(1/5)) 1 (17/10) +
                windowed_ref 70 60 80) / 4), info)) := by
  have hbde : calc_bde Mconc stateMethyl = Except.ok (70, 15) := by
    have hprep : prepare_for_bde Mconc.rd stateMethyl.molecule
        = Except.ok (inputsMethyl, molMethylCapped) := by decide
    unfold calc_bde
    rw [hprep]
    norm_num [bde_get_inputs, out_of_domain, Mconc, inputsMethyl, fancyIndex,
      min_def]
  exact ⟨rfl, by decide,
    get_reward_terminal_formula Mconc stateMethyl [9/10] [3/10] 1 (-(1/5)) 70 15 0
      (by decide) rfl rfl rfl (by decide) (by decide) rfl hbde⟩

/-
Claim C2.
-/

/-- C2: an out-of-domain state (unknown token 1 in the atom or bond policy
features), and likewise an in-domain state that is not forced-terminal,
receives exactly `(0.0, {forced_terminal: false, smiles})` from
`get_reward` — the models are never consulted (the result is this constant
for every choice of the prediction functions); only forced-terminal
in-domain states reach `calc_reward`. -/
theorem get_reward_short_circuit (M : Models) (state : MoleculeState)
    (h : out_of_domain (M.getPolicyInputs state) = true ∨
      state.forced_terminal = false) :
    get_reward M state = Except.ok
      (0, { forced_terminal := false, smiles := state.smiles,
            calcStats := none }) := by
  unfold get_reward
  rcases h with h | h
  · simp [h]
  · by_cases hd : out_of_domain (M.getPolicyInputs state)
    · simp [hd]
    · simp [hd, h]

/-- Witness for C2 on the non-terminal methyl-radical state. -/
theorem get_reward_short_circuit_witness :
    (out_of_domain (Mconc.getPolicyInputs stateMethylNT) = true ∨
      stateMethylNT.forced_terminal = false) ∧
    get_reward Mconc stateMethylNT = Except.ok
      (0, { forced_terminal := false, smiles := stateMethylNT.smiles,
            calcStats := none }) :=
  ⟨Or.inr rfl, get_reward_short_circuit Mconc stateMethylNT (Or.inr rfl)⟩

/-
Claim C5.
-/

/-- C5 counterexample: a forced-terminal state whose stability/policy
featurization is clean but whose BDE featurization (on the prepared SMILES)
reports the unknown token 1 makes `get_reward` raise `AssertionError`
(from the `assert` in `bde_get_inputs`) instead of returning a zero
reward. -/
theorem bde_domain_check_raises :
    out_of_domain (Mbadbde.getPolicyInputs stateMethyl) = false ∧
    stateMethyl.forced_terminal = true ∧
    out_of_domain (Mbadbde.bdePreprocess inputsMethyl.mol_smiles) = true ∧
    get_reward Mbadbde stateMethyl = Except.error PyError.assertionError :=
  ⟨by decide, rfl, by decide, by decide⟩

/-- C5 amended: unknown tokens in the stability/policy featurization are
recovered as the zero-reward result, but unknown tokens reported by the
separate BDE preprocessor on the prepared SMILES raise an `AssertionError`
that propagates out of `get_reward`. -/
theorem get_reward_domain_error_paths (M : Models) (state : MoleculeState) :
    (out_of_domain (M.getPolicyInputs state) = true →
      get_reward M state = Except.ok
        (0, { forced_terminal := false, smiles := state.smiles,
              calcStats := none })) ∧
    (∀ spins buried_vol atom_index bi mutated,
      out_of_domain (M.getPolicyInputs state) = false →
      state.forced_terminal = true →
      M.stabilityPredict (M.getPolicyInputs state) = (spins, buried_vol) →
      argmax spins = some atom_index →
      atom_index < buried_vol.length →
      atom_index < state.molecule.atoms.length →
      prepare_for_bde M.rd state.molecule = Except.ok (bi, mutated) →
      out_of_domain (M.bdePreprocess bi.mol_smiles) = true →
      get_reward M state = Except.error PyError.assertionError) := by
  constructor
  · intro h
    simp [get_reward, h]
  · intro spins buried_vol atom_index bi mutated hdom hterm hstab hargmax hbv
      hatom hprep hbad
    have hsp : atom_index < spins.length :=
      argmax_lt_length spins atom_index hargmax
    have hcb : calc_bde M state = Except.error PyError.assertionError := by
      unfold calc_bde
      rw [hprep]
      dsimp only
      have hbg : bde_get_inputs M bi.mol_smiles
          = Except.error PyError.assertionError := by
        simp [bde_get_inputs, hbad]
      rw [hbg]
    simp only [get_reward, calc_reward, hdom, Bool.false_eq_true, if_false,
      hterm, if_true, hstab, hargmax, List.getElem?_eq_getElem hsp,
      List.getElem?_eq_getElem hbv, List.getElem?_eq_getElem hatom, hcb]

/-- Witness for the amended C5 on the bad-BDE-featurization scenario. -/
theorem get_reward_domain_error_paths_witness :
    out_of_domain (Mbadbde.bdePreprocess inputsMethyl.mol_smiles) = true ∧
    get_reward Mbadbde stateMethyl = Except.error PyError.assertionError :=
  ⟨by decide,
   (get_reward_domain_error_paths Mbadbde stateMethyl).2 [9/10] [3/10] 0
     inputsMethyl molMethylCapped (by decide) rfl rfl rfl (by decide)
     (by decide) (by decide) (by decide)⟩

/-
Shared lemmas for the GraphGym masking claim.
-/

/-- Reshaping the flattened per-action outputs by the rows' lengths recovers
the per-row mapping. -/
theorem splitLens_flatten_map {Obs : Type} (f : Obs → ℚ) :
    ∀ (rows : List (List Obs)) (lens : List ℕ), lens = rows.map List.length →
      splitLens (rows.flatten.map f) lens = rows.map (List.map f) := by
  intro rows
  induction rows with
  | nil =>
    intro lens h
    subst h
    rfl
  | cons r rs ih =>
    intro lens h
    subst h
    simp only [List.map_cons, List.flatten_cons, List.map_append, splitLens]
    congr 1
    · rw [show r.length = (List.map f r).length from (List.length_map r f).symm]
      exact List.take_left _ _
    · rw [show r.length = (List.map f r).length from (List.length_map r f).symm,
        List.drop_left]
      exact ih _ rfl

/-- The row maximum bounds every row entry from above. -/
theorem reduce_max_ge (d : ℚ) (l : List ℚ) : ∀ y ∈ l, y ≤ reduce_max d l := by
  cases l with
  | nil => simp
  | cons x xs =>
    intro y hy
    rcases List.mem_cons.mp hy with h | h
    · subst h
      exact (foldl_max_le xs y).1
    · exact (foldl_max_le xs x).2 y h

/-- The row maximum of a nonempty row is one of its entries. -/
theorem reduce_max_mem (d : ℚ) (l : List ℚ) (h : l ≠ []) :
    reduce_max d l ∈ l := by
  cases l with
  | nil => exact absurd rfl h
  | cons x xs => exact foldl_max_mem xs x

/-
Claim C10.
-/

/-- C10: in `GraphGymModel.forward`, every invalid action of batch row `b`
has both its returned action weight and its internal (masked) action value
replaced by the dtype minimum; `value_function` returns the row maximum of
the masked action values; and when `dtypeMin` is a lower bound of all
produced action values (the defining property of the minimum representable
value) and at least one action of the row is valid, the reported value is
attained at a valid action and bounds every valid action's value — i.e. it
is the maximum over the valid actions only. -/
theorem forward_masking_spec {Obs : Type} [Inhabited Obs]
    (per_action_model : Obs → ℚ × ℚ) (dtypeMin : ℚ)
    (action_mask : List (List Bool)) (action_observations : List (List Obs))
    (hlen : action_mask.map List.length = action_observations.map List.length)
    (hmin : ∀ row ∈ action_observations, ∀ o ∈ row,
      dtypeMin ≤ (per_action_model o).1)
    (b : ℕ) (hb : b < action_mask.length) :
    (∀ a, a < (action_mask.getD b []).length →
      (action_mask.getD b []).getD a true = false →
      ((forward per_action_model dtypeMin action_mask
          action_observations).action_weights.getD b []).getD a 0 = dtypeMin ∧
      ((masked_action_values per_action_model dtypeMin action_mask
          action_observations).getD b []).getD a 0 = dtypeMin) ∧
    (value_function (forward per_action_model dtypeMin action_mask
        action_observations)).getD b 0
      = reduce_max dtypeMin ((masked_action_values per_action_model dtypeMin
          action_mask action_observations).getD b []) ∧
    ((∃ a, a < (action_mask.getD b []).length ∧
        (action_mask.getD b []).getD a true = true) →
      (∃ a, a < (action_mask.getD b []).length ∧
        (action_mask.getD b []).getD a true = true ∧
        (value_function (forward per_action_model dtypeMin action_mask
            action_observations)).getD b 0
          = (per_action_model
              ((action_observations.getD b []).getD a default)).1) ∧
      (∀ a, a < (action_mask.getD b []).length →
        (action_mask.getD b []).getD a true = true →
        (per_action_model ((action_observations.getD b []).getD a default)).1
          ≤ (value_function (forward per_action_model dtypeMin action_mask
              action_observations)).getD b 0)) := by
  have hoblen : action_observations.length = action_mask.length := by
    have h := congrArg List.length hlen
    simpa using h.symm
  have hob : b < action_observations.length := hoblen ▸ hb
  have hb1 : b < (action_mask.map List.length).length := by simpa using hb
  have hb2 : b < (action_observations.map List.length).length := by
    simpa using hob
  have hrow : action_mask[b].length = (action_observations[b]).length := by
    have h1 : (action_mask.map List.length)[b]
        = (action_observations.map List.length)[b] := by
      simp only [hlen]
    simpa [List.getElem_map] using h1
  have hmaskgetD : action_mask.getD b [] = action_mask[b] :=
    List.getD_eq_getElem action_mask [] hb
  have hobsgetD : action_observations.getD b [] = action_observations[b] :=
    List.getD_eq_getElem action_observations [] hob
  have hvals : splitLens (action_observations.flatten.map
        (fun o => (per_action_model o).1)) (action_mask.map List.length)
      = action_observations.map (List.map (fun o => (per_action_model o).1)) :=
    splitLens_flatten_map _ action_observations (action_mask.map List.length) hlen
  have hwts : splitLens (action_observations.flatten.map
        (fun o => (per_action_model o).2)) (action_mask.map List.length)
      = action_observations.map (List.map (fun o => (per_action_model o).2)) :=
    splitLens_flatten_map _ action_observations (action_mask.map List.length) hlen
  have hmavlen : (masked_action_values per_action_model dtypeMin action_mask
      action_observations).length = action_mask.length := by
    unfold masked_action_values mask_min
    rw [hvals]
    simp [hoblen]
  have hmavb : b < (masked_action_values per_action_model dtypeMin action_mask
      action_observations).length := by rw [hmavlen]; exact hb
  have hmavrow : (masked_action_values per_action_model dtypeMin action_mask
        action_observations)[b]
      = List.zipWith (fun m v => if m then v else dtypeMin) (action_mask[b])
          ((action_observations[b]).map (fun o => (per_action_model o).1)) := by
    unfold masked_action_values mask_min
    simp only [hvals]
    rw [List.getElem_zipWith]
    congr 1
    exact List.getElem_map _
  have hmavgetD : (masked_action_values per_action_model dtypeMin action_mask
        action_observations).getD b []
      = List.zipWith (fun m v => if m then v else dtypeMin) (action_mask[b])
          ((action_observations[b]).map (fun o => (per_action_model o).1)) := by
    rw [List.getD_eq_getElem _ [] hmavb, hmavrow]
  have hwlen : (forward per_action_model dtypeMin action_mask
      action_observations).action_weights.length = action_mask.length := by
    unfold forward mask_min
    rw [hwts]
    simp [hoblen]
  have hwbb : b < (forward per_action_model dtypeMin action_mask
      action_observations).action_weights.length := by rw [hwlen]; exact hb
  have hwrow : (forward per_action_model dtypeMin action_mask
        action_observations).action_weights.getD b []
      = List.zipWith (fun m v => if m then v else dtypeMin) (action_mask[b])
          ((action_observations[b]).map (fun o => (per_action_model o).2)) := by
    rw [List.getD_eq_getElem _ [] hwbb]
    unfold forward mask_min
    simp only [hwts]
    rw [List.getElem_zipWith]
    congr 1
    exact List.getElem_map _
  have hvf : (value_function (forward per_action_model dtypeMin action_mask
        action_observations)).getD b 0
      = reduce_max dtypeMin ((masked_action_values per_action_model dtypeMin
          action_mask action_observations).getD b []) := by
    unfold value_function forward
    have hmb : b < ((masked_action_values per_action_model dtypeMin action_mask
        action_observations).map (reduce_max dtypeMin)).length := by
      simpa using hmavb
    rw [List.getD_eq_getElem _ 0 hmb, List.getElem_map,
      List.getD_eq_getElem _ [] hmavb]
  refine ⟨?_, hvf, ?_⟩
  · intro a ha hfalse
    rw [hmaskgetD] at ha hfalse
    have hma : (action_mask[b]).getD a true = (action_mask[b])[a] :=
      List.getD_eq_getElem _ true ha
    rw [hma] at hfalse
    constructor
    · rw [hwrow]
      have haz : a < (List.zipWith (fun m v => if m then v else dtypeMin)
          (action_mask[b])
          ((action_observations[b]).map
            (fun o => (per_action_model o).2))).length := by
        simp [List.length_zipWith, hrow]
        omega
      rw [List.getD_eq_getElem _ 0 haz, List.getElem_zipWith, hfalse]
      simp
    · rw [hmavgetD]
      have haz : a < (List.zipWith (fun m v => if m then v else dtypeMin)
          (action_mask[b])
          ((action_observations[b]).map
            (fun o => (per_action_model o).1))).length := by
        simp [List.length_zipWith, hrow]
        omega
      rw [List.getD_eq_getElem _ 0 haz, List.getElem_zipWith, hfalse]
      simp
  · rintro ⟨a0, ha0, hvalid0⟩
    rw [hmaskgetD] at ha0 hvalid0
    rw [List.getD_eq_getElem _ true ha0] at hvalid0
    set mvrow := List.zipWith (fun m v => if m then v else dtypeMin)
      (action_mask[b])
      ((action_observations[b]).map (fun o => (per_action_model o).1))
      with hmv
    have hmvlen : mvrow.length = (action_mask[b]).length := by
      simp [hmv, List.length_zipWith, hrow]
    have hne : mvrow ≠ [] := by
      intro hc
      rw [hc] at hmvlen
      simp at hmvlen
      omega
    have hentry : ∀ a (ha2 : a < (action_mask[b]).length),
        mvrow[a]
          = if (action_mask[b])[a] then
              (per_action_model
                ((action_observations[b])[a])).1
            else dtypeMin := by
      intro a ha2
      simp only [hmv]
      rw [List.getElem_zipWith]
      congr 1
      rw [List.getElem_map]
    have hvalue : (value_function (forward per_action_model dtypeMin action_mask
        action_observations)).getD b 0 = reduce_max dtypeMin mvrow := by
      rw [hvf, hmavgetD]
    have hub : ∀ a (ha2 : a < (action_mask[b]).length),
        (action_mask[b])[a] = true →
        (per_action_model
            ((action_observations[b])[a])).1
          ≤ reduce_max dtypeMin mvrow := by
      intro a ha2 hv
      have he := hentry a ha2
      rw [hv, if_pos rfl] at he
      have hmem : mvrow[a] ∈ mvrow :=
        List.getElem_mem (by rw [hmvlen]; exact ha2)
      have hle := reduce_max_ge dtypeMin mvrow _ hmem
      rw [he] at hle
      exact hle
    refine ⟨?_, ?_⟩
    · have hmem := reduce_max_mem dtypeMin mvrow hne
      obtain ⟨astar, hastar, hget⟩ := List.mem_iff_getElem.mp hmem
      have hastar' : astar < (action_mask[b]).length := by
        rw [← hmvlen]; exact hastar
      have he := hentry astar hastar'
      by_cases hcase : (action_mask[b])[astar] = true
      · refine ⟨astar, ?_, ?_, ?_⟩
        · rw [hmaskgetD]; exact hastar'
        · rw [hmaskgetD, List.getD_eq_getElem _ true hastar']; exact hcase
        · rw [hvalue, ← hget]
          rw [he, if_pos hcase]
          rw [hobsgetD,
            List.getD_eq_getElem _ default (by rw [← hrow]; exact hastar')]
      · have hcf : (action_mask[b])[astar] = false := by
          revert hcase
          cases (action_mask[b])[astar] <;> simp
        rw [hcf] at he
        simp only [if_false, Bool.false_eq_true] at he
        have hredmin : reduce_max dtypeMin mvrow = dtypeMin := by
          rw [← hget]
          rw [he]
        have hle0 := hub a0 ha0 hvalid0
        rw [hredmin] at hle0
        have hge0 : dtypeMin ≤ (per_action_model
            ((action_observations[b])[a0])).1 := by
          apply hmin
          · exact List.getElem_mem hob
          · exact List.getElem_mem (by rw [← hrow]; exact ha0)
        refine ⟨a0, ?_, ?_, ?_⟩
        · rw [hmaskgetD]; exact ha0
        · rw [hmaskgetD, List.getD_eq_getElem _ true ha0]; exact hvalid0
        · rw [hvalue, hredmin, hobsgetD,
            List.getD_eq_getElem _ default (by rw [← hrow]; exact ha0)]
          exact le_antisymm hge0 hle0
    · intro a ha hv
      rw [hmaskgetD] at ha hv
      rw [List.getD_eq_getElem _ true ha] at hv
      rw [hvalue, hobsgetD,
        List.getD_eq_getElem _ default (by rw [← hrow]; exact ha)]
      exact hub a ha hv

/-- Witness for C10: one batch row with a valid action (observation 5) and
an invalid action (observation 7), dtype minimum -100. -/
theorem forward_masking_spec_witness :
    (([[true, false]] : List (List Bool)).map List.length
        = ([[(5 : ℕ), 7]] : List (List ℕ)).map List.length) ∧
    (((forward (fun o : ℕ => ((o : ℚ), (o : ℚ))) (-100)
        [[true, false]] [[5, 7]]).action_weights.getD 0 []).getD 1 0 = -100) ∧
    (((masked_action_values (fun o : ℕ => ((o : ℚ), (o : ℚ))) (-100)
        [[true, false]] [[5, 7]]).getD 0 []).getD 1 0 = -100) ∧
    ((value_function (forward (fun o : ℕ => ((o : ℚ), (o : ℚ))) (-100)
        [[true, false]] [[5, 7]])).getD 0 0
      = reduce_max (-100) ((masked_action_values (fun o : ℕ => ((o : ℚ), (o : ℚ)))
          (-100) [[true, false]] [[5, 7]]).getD 0 [])) := by
  have hmin : ∀ row ∈ ([[(5 : ℕ), 7]] : List (List ℕ)), ∀ o ∈ row,
      (-100 : ℚ) ≤ ((fun o : ℕ => ((o : ℚ), (o : ℚ))) o).1 := by
    intro row hrow o ho
    simp only [List.mem_singleton] at hrow
    subst hrow
    simp only [List.mem_cons, List.not_mem_nil, or_false] at ho
    rcases ho with h | h <;> subst h <;> norm_num
  have h := forward_masking_spec (fun o : ℕ => ((o : ℚ), (o : ℚ))) (-100)
    [[true, false]] [[5, 7]] rfl hmin 0 (by decide)
  have hinv := h.1 1 (by decide) (by decide)
  exact ⟨rfl, hinv.1, hinv.2, h.2.1⟩
